import Mathlib

/-!
Shallow embedding of `tempest/stress/driver.py`: the worker supervision and
termination-decision engine of the stress-test driver.

Modelling conventions:
* A remote channel (`ssh.Client.exec_command` keyed by command and host) is a
  function `String → String → Option String`; `none` stands for
  `SSHExecCommandFailed` being raised, `some out` for the command's output.
* Python string truthiness (`if not s`) is `pyTruthy`; a missing config value
  (`None`) is `Option.none`, an empty string is falsy as in Python.
* Code that can raise an uncaught exception (the `words[4]` indexing in
  `_get_compute_nodes`) is embedded in `Except Unit`; `Except.error ()` stands
  for an uncaught `IndexError`.
* Wall-clock time is `Nat`; `time.sleep d` advances the clock by exactly `d`
  and everything else is instantaneous.  The polling `while` loop is embedded
  as a fuel-indexed recursion returning `none` when the fuel runs out before
  the loop exits.
-/

namespace StressDriver

/-- Python truthiness of an optional string: `None` and `""` are falsy. -/
def pyTruthy : Option String → Bool
  | none => false
  | some s => s ≠ ""

/-- The stress-section config values consulted by `do_ssh`
(`admin_manager.config.stress`). -/
structure StressConfig where
  target_ssh_user : Option String
  target_private_key_path : Option String
  deriving DecidableEq, Repr

/-- Embeds `do_ssh(command, host)`: returns `none` without touching the channel
when username or key path is falsy, otherwise runs the command through the
channel; a raised `SSHExecCommandFailed` (channel `none`) is caught and
returned as `none`. -/
def do_ssh (cfg : StressConfig) (channel : String → String → Option String)
    (command host : String) : Option String :=
  if pyTruthy cfg.target_ssh_user && pyTruthy cfg.target_private_key_path then
    channel command host
  else
    none

/-- Instrumented variant of `do_ssh` that also counts connection attempts:
the second component is `1` exactly when an `ssh.Client` was built and used. -/
def do_ssh_conn (cfg : StressConfig) (channel : String → String → Option String)
    (command host : String) : Option String × Nat :=
  if pyTruthy cfg.target_ssh_user && pyTruthy cfg.target_private_key_path then
    (channel command host, 1)
  else
    (none, 0)

/-- Splits a character list at every character satisfying `p`, keeping empty
pieces (the helper behind `pySplit` and `pySplitLines`). -/
def splitCharsAux (p : Char → Bool) : List Char → List Char → List (List Char)
  | [], acc => [acc.reverse]
  | c :: cs, acc =>
    if p c then
      acc.reverse :: splitCharsAux p cs []
    else
      splitCharsAux p cs (c :: acc)

/-- Python `str.split()` with no separator: split on whitespace, dropping
empty pieces (so runs of whitespace and edges produce nothing). -/
def pySplit (s : String) : List String :=
  ((splitCharsAux Char.isWhitespace s.data []).map (fun cs => String.mk cs)).filter
    (fun w => w ≠ "")

/-- Python `str.split('\n')`: split on newlines, keeping empty pieces. -/
def pySplitLines (s : String) : List String :=
  (splitCharsAux (fun c => c = Char.ofNat 10) s.data []).map (fun cs => String.mk cs)

/-- The `nova-manage` listing command issued by `_get_compute_nodes`. -/
def nodeListCmd : String := "nova-manage service list | grep ^nova-compute"

/-- One iteration of the line loop in `_get_compute_nodes`:
`words = line.split(); if len(words) > 0 and words[4] == ":-)":
nodes.append(words[1])`.  Indexing past the end of `words` is an uncaught
`IndexError`, embedded as `Except.error ()`. -/
def nodeLineStep (nodes : List String) (line : String) : Except Unit (List String) :=
  let words := pySplit line
  if words.length > 0 then
    match words.get? 4 with
    | none => Except.error ()
    | some w4 =>
      if w4 = ":-)" then
        match words.get? 1 with
        | none => Except.error ()
        | some w1 => Except.ok (nodes ++ [w1])
      else
        Except.ok nodes
  else
    Except.ok nodes

/-- Embeds `_get_compute_nodes(controller)`: run the listing command over ssh,
return `[]` when the output is falsy, otherwise fold the line loop over
`output.split('\n')`. -/
def _get_compute_nodes (cfg : StressConfig)
    (channel : String → String → Option String) (controller : String) :
    Except Unit (List String) :=
  match do_ssh cfg channel nodeListCmd controller with
  | none => Except.ok []
  | some output =>
    if output = "" then
      Except.ok []
    else
      (pySplitLines output).foldlM nodeLineStep []

/-- The `egrep` command issued by `_error_in_logs` for a given `logfiles`. -/
def grepCmd (logfiles : String) : String :=
  "egrep \"ERROR|TRACE\" " ++ logfiles

/-- Embeds the node loop of `_error_in_logs`: for each node,
`errors = do_ssh(grep, node); if not errors: return None;
if len(errors) > 0: return errors`.  The fall-through to the next node is kept
even though no branch reaches it. -/
def _error_in_logs_loop (sshGrep : String → Option String) :
    List String → Option String
  | [] => none
  | node :: rest =>
    match sshGrep node with
    | none => none
    | some errors =>
      if errors = "" then
        none
      else if errors.length > 0 then
        some errors
      else
        _error_in_logs_loop sshGrep rest

/-- Embeds `_error_in_logs(logfiles, nodes)`. -/
def _error_in_logs (cfg : StressConfig)
    (channel : String → String → Option String) (logfiles : String)
    (nodes : List String) : Option String :=
  _error_in_logs_loop (fun node => do_ssh cfg channel (grepCmd logfiles) node) nodes

/-- State of one `multiprocessing.Process` handle as the driver can observe
it: `alive` mirrors `is_alive()`, `termCount` counts delivered `terminate()`
requests, `joined` records a completed `join()`. -/
structure ProcHandle where
  alive : Bool
  termCount : Nat
  joined : Bool
  deriving DecidableEq, Repr

/-- Worst-case model of `process.terminate()`: delivering a termination
request to a live process kills it; addressing a process that is already dead
may raise, embedded as `Except.error ()`. -/
def rawTerminate (h : ProcHandle) : Except Unit ProcHandle :=
  if h.alive then
    Except.ok { h with alive := false, termCount := h.termCount + 1 }
  else
    Except.error ()

/-- The `try: ... except Exception: pass` wrapper around `terminate()`. -/
def pyTryIgnore (x : Except Unit ProcHandle) (fallback : ProcHandle) : ProcHandle :=
  match x with
  | Except.ok v => v
  | Except.error _ => fallback

/-- `process.join()`: blocks until the process has exited, after which it is
no longer alive. -/
def joinProc (h : ProcHandle) : ProcHandle :=
  { h with alive := false, joined := true }

/-- The body of the loop in `terminate_all_processes` for one process:
`if process['process'].is_alive(): try: terminate() except: pass` followed by
an unconditional `join()`. -/
def term_join_one (h : ProcHandle) : ProcHandle :=
  joinProc (if h.alive then pyTryIgnore (rawTerminate h) h else h)

/-- Embeds `terminate_all_processes()` acting on the registry of handles. -/
def terminate_all_processes (ps : List ProcHandle) : List ProcHandle :=
  ps.map term_join_one

/-- Why the polling `while` loop in `stress_openstack` was exited. -/
inductive StopReason where
  | timeExpired
  | allDead
  | logError
  deriving DecidableEq, Repr

/-- `is_alive()` of a worker whose exit time is `death` (`none` = it never
exits on its own), observed at wall-clock time `t`. -/
def aliveAt (death : Option Nat) (t : Nat) : Bool :=
  match death with
  | none => true
  | some d => t < d

/-- The `all_proc_term` computation inside the polling loop: scan the
registry and clear the flag at the first live process. -/
def allDeadAt (deaths : List (Option Nat)) (t : Nat) : Bool :=
  deaths.all (fun d => !aliveAt d t)

/-- The inner `stop_on_error` check of the polling loop:
`for process in processes: if process['statistic']['fails'] > 0: break`.
The `break` exits only this inner `for` loop, so the computed value never
influences the outer `while` loop; it is discarded at the call site exactly
as in the source. -/
def failsObserved (failsAt : List Nat) : Bool :=
  failsAt.any (fun f => 0 < f)

/-- Embeds the polling `while` loop of `stress_openstack` (the RUNNING
phase).  Parameters: `maxRuns` is the `max_runs` argument, `L` the
`log_check_interval`, `endTime` the precomputed `end_time`, `logfiles`
whether log monitoring is configured, `deaths` the workers' own exit times,
`failsAt t` the per-worker `fails` counters as visible at time `t`, and
`logScan t` the result `_error_in_logs` would return at time `t`.  The
result is the wall-clock time at which the loop exited together with the
reason, or `none` when `fuel` iterations did not suffice. -/
def pollLoop (maxRuns : Option Nat) (L : Nat) (endTime : Nat)
    (stopOnError : Bool) (logfiles : Bool) (deaths : List (Option Nat))
    (failsAt : Nat → List Nat) (logScan : Nat → Option String) :
    Nat → Nat → Option (Nat × StopReason)
  | 0, _t => none
  | fuel + 1, t =>
    match maxRuns with
    | none =>
      let remaining := endTime - t
      if remaining = 0 then
        some (t, StopReason.timeExpired)
      else
        let t' := t + min remaining L
        let _obs := stopOnError && failsObserved (failsAt t')
        if logfiles then
          match logScan t' with
          | some _e => some (t', StopReason.logError)
          | none =>
            pollLoop maxRuns L endTime stopOnError logfiles deaths failsAt logScan fuel t'
        else
          pollLoop maxRuns L endTime stopOnError logfiles deaths failsAt logScan fuel t'
    | some _n =>
      if allDeadAt deaths t then
        some (t, StopReason.allDead)
      else
        let t' := t + min L L
        let _obs := stopOnError && failsObserved (failsAt t')
        if logfiles then
          match logScan t' with
          | some _e => some (t', StopReason.logError)
          | none =>
            pollLoop maxRuns L endTime stopOnError logfiles deaths failsAt logScan fuel t'
        else
          pollLoop maxRuns L endTime stopOnError logfiles deaths failsAt logScan fuel t'

/-- One entry of the `processes` registry as the shutdown phase sees it:
`p_number`, `action`, the process handle, and the final values of the shared
statistics dict (frozen once the worker is joined). -/
structure WorkerRec where
  p_number : Nat
  action : String
  handle : ProcHandle
  runs : Nat
  fails : Nat
  deriving DecidableEq, Repr

/-- `terminate_all_processes()` over the full registry records: only the
handles change, the statistics are untouched. -/
def terminate_all_recs (ps : List WorkerRec) : List WorkerRec :=
  ps.map (fun p => { p with handle := term_join_one p.handle })

/-- The statistics loop of `stress_openstack` after termination:
starting from `(sum_runs, sum_fails, had_errors)` = `(0, 0, he0)`, each
process sets `had_errors` when its `fails > 0` and adds its counters to the
sums. -/
def reportFold (ps : List WorkerRec) (he0 : Bool) : Nat × Nat × Bool :=
  ps.foldl
    (fun acc p => (acc.1 + p.runs, acc.2.1 + p.fails, acc.2.2 || decide (0 < p.fails)))
    (0, 0, he0)

/-- Outcome of the shutdown sequence: the aggregated report, how many times
`cleanup.cleanup` was invoked, and the returned exit status. -/
structure FinishResult where
  sum_runs : Nat
  sum_fails : Nat
  had_errors : Bool
  cleanupCalls : Nat
  exitStatus : Nat
  deriving DecidableEq, Repr

/-- Embeds the tail of `stress_openstack` (STOPPING and REPORTED):
`terminate_all_processes()`, the statistics loop, `if not had_errors:
cleanup.cleanup(...)`, and `return 1 if had_errors else 0`.  `he0` is the
value of `had_errors` on leaving the polling loop. -/
def stress_finish (ps : List WorkerRec) (he0 : Bool) : FinishResult :=
  let ps' := terminate_all_recs ps
  let rep := reportFold ps' he0
  { sum_runs := rep.1
    sum_fails := rep.2.1
    had_errors := rep.2.2
    cleanupCalls := if rep.2.2 then 0 else 1
    exitStatus := if rep.2.2 then 1 else 0 }

/-- Composition of the polling loop and the shutdown sequence: on leaving the
loop, `had_errors` is `true` exactly when the loop broke at the
`_error_in_logs` check (the only assignment of `had_errors` before the
statistics loop). -/
def runDriver (maxRuns : Option Nat) (L : Nat) (endTime : Nat)
    (stopOnError : Bool) (logfiles : Bool) (deaths : List (Option Nat))
    (failsAt : Nat → List Nat) (logScan : Nat → Option String)
    (fuel t0 : Nat) (workers : List WorkerRec) : Option FinishResult :=
  match pollLoop maxRuns L endTime stopOnError logfiles deaths failsAt logScan fuel t0 with
  | none => none
  | some (_t, reason) =>
    some (stress_finish workers (decide (reason = StopReason.logError)))

/-- Observable events of the shutdown sequence, used to state its ordering:
joining a worker, reading a worker's final statistics for the report, and the
cleanup call. -/
inductive FinishEvent where
  | join (idx : Nat)
  | readStats (idx : Nat) (runs fails : Nat)
  | cleanup
  deriving DecidableEq, Repr

/-- The join events emitted by `terminate_all_processes`, one per registry
entry in order. -/
def terminate_all_events (ps : List WorkerRec) : List FinishEvent :=
  ps.map (fun p => FinishEvent.join p.p_number)

/-- The statistics reads emitted by the reporting loop, one per registry
entry in order. -/
def report_events (ps : List WorkerRec) : List FinishEvent :=
  ps.map (fun p => FinishEvent.readStats p.p_number p.runs p.fails)

/-- The full event trace of the shutdown sequence, in the order the source
executes it: all joins (`terminate_all_processes()`), then all statistics
reads (the report loop), then the conditional cleanup call. -/
def finish_events (ps : List WorkerRec) (he0 : Bool) : List FinishEvent :=
  terminate_all_events ps ++ report_events (terminate_all_recs ps) ++
    (if (reportFold (terminate_all_recs ps) he0).2.2 then [] else [FinishEvent.cleanup])

/-! ## Helper lemmas -/

theorem string_length_pos_of_ne_empty (s : String) (h : s ≠ "") : 0 < s.length := by
  cases s with
  | mk data =>
    cases data with
    | nil => exact absurd rfl h
    | cons c cs => simp [String.length]

theorem term_join_one_alive (h : ProcHandle) : (term_join_one h).alive = false := by
  simp [term_join_one, joinProc]

theorem term_join_one_joined (h : ProcHandle) : (term_join_one h).joined = true := by
  simp [term_join_one, joinProc]

theorem term_join_one_of_dead (h : ProcHandle) (hd : h.alive = false) :
    term_join_one h = joinProc h := by
  simp [term_join_one, hd]

theorem term_join_one_idem (h : ProcHandle) :
    term_join_one (term_join_one h) = term_join_one h := by
  have hd : (term_join_one h).alive = false := term_join_one_alive h
  rw [term_join_one_of_dead _ hd]
  cases h with
  | mk a tc j =>
    simp [term_join_one, joinProc, rawTerminate, pyTryIgnore]

/-! ## Claim theorems -/

/-- Claim C4: `terminate_all_processes` is idempotent — running it twice over
the registry leaves the same state as running it once; a termination request
addressed to an already-dead worker is never issued raw (the `is_alive` guard
routes it to a bare `join`, so nothing can raise), and every worker is joined
(and no longer alive) after the call. -/
theorem terminate_all_idempotent (ps : List ProcHandle) :
    terminate_all_processes (terminate_all_processes ps) = terminate_all_processes ps ∧
    (∀ h ∈ terminate_all_processes ps, h.joined = true ∧ h.alive = false) ∧
    (∀ h : ProcHandle, h.alive = false → term_join_one h = joinProc h) := by
  refine ⟨?_, ?_, fun h hd => term_join_one_of_dead h hd⟩
  · simp [terminate_all_processes, Function.comp, term_join_one_idem]
  · intro h hmem
    simp only [terminate_all_processes, List.mem_map] at hmem
    obtain ⟨g, _hg, rfl⟩ := hmem
    exact ⟨term_join_one_joined g, term_join_one_alive g⟩

/-- Witness for C4 at a singleton registry holding one live worker, plus the
dead-worker path at a concrete dead handle. -/
theorem terminate_all_idempotent_witness :
    terminate_all_processes (terminate_all_processes [⟨true, 0, false⟩]) =
      terminate_all_processes [⟨true, 0, false⟩] ∧
    ((⟨false, 1, true⟩ : ProcHandle).joined = true ∧
      (⟨false, 1, true⟩ : ProcHandle).alive = false) ∧
    term_join_one ⟨false, 2, false⟩ = joinProc ⟨false, 2, false⟩ :=
  ⟨(terminate_all_idempotent [⟨true, 0, false⟩]).1,
   (terminate_all_idempotent [⟨true, 0, false⟩]).2.1 ⟨false, 1, true⟩ (by decide),
   (terminate_all_idempotent []).2.2 ⟨false, 2, false⟩ rfl⟩

/-- Claim C7: the driver returns exit status `1` exactly when `had_errors` is
true and `0` otherwise, and `cleanup.cleanup` is invoked exactly once when
`had_errors` is false and never when it is true. -/
theorem finish_status_and_cleanup (ps : List WorkerRec) (he0 : Bool) :
    (stress_finish ps he0).exitStatus =
      (if (stress_finish ps he0).had_errors then 1 else 0) ∧
    (stress_finish ps he0).cleanupCalls =
      (if (stress_finish ps he0).had_errors then 0 else 1) := by
  simp [stress_finish]

/-- Counterexample to claim C2: with a first node whose grep shows no errors
(empty output) and a second node whose grep reports `"ERROR x"`, the scan
returns nothing — yet scanning the second node alone finds the error, so a
node with no errors does prevent a later node's errors from being found. -/
theorem error_in_logs_skips_later_nodes :
    _error_in_logs ⟨some "u", some "k"⟩
        (fun _c h => if h = "n2" then some "ERROR x" else some "") "log" ["n1", "n2"] =
      none ∧
    _error_in_logs ⟨some "u", some "k"⟩
        (fun _c h => if h = "n2" then some "ERROR x" else some "") "log" ["n2"] =
      some "ERROR x" :=
  ⟨rfl, rfl⟩

/-- Claim C2 (amended): the log scan consults only the first node of the
sequence — it returns that node's error output when the channel yields a
non-empty result there, and returns nothing when the first node's channel
fails or yields an empty result; later nodes are never examined. -/
theorem error_in_logs_first_node_only (cfg : StressConfig)
    (channel : String → String → Option String) (logfiles node : String)
    (rest : List String) :
    _error_in_logs cfg channel logfiles (node :: rest) =
      _error_in_logs cfg channel logfiles [node] ∧
    _error_in_logs cfg channel logfiles [] = none := by
  refine ⟨?_, rfl⟩
  simp only [_error_in_logs, _error_in_logs_loop]
  cases h : do_ssh cfg channel (grepCmd logfiles) node with
  | none => rfl
  | some e =>
    by_cases he : e = ""
    · simp [he]
    · have hl : 0 < e.length := string_length_pos_of_ne_empty e he
      simp [he, hl]

/-- Claim C3 evaluated: feeding `_get_compute_nodes` a listing whose line has
fewer than five fields raises (an uncaught `IndexError`, `Except.error ()`),
while a well-formed `":-)"` line appends the hostname and a well-formed
non-`":-)"` line (and a trailing empty line) is skipped. -/
theorem get_compute_nodes_short_line_raises :
    _get_compute_nodes ⟨some "u", some "k"⟩ (fun _c _h => some "nova-compute host1")
        "ctl" = Except.error () ∧
    _get_compute_nodes ⟨some "u", some "k"⟩
        (fun _c _h => some "nova-compute host1 nova enabled :-) 2011-10-31 18:57:46\n")
        "ctl" = Except.ok ["host1"] ∧
    _get_compute_nodes ⟨some "u", some "k"⟩
        (fun _c _h => some "nova-compute host1 nova disabled XXX 2011-10-31 18:57:46")
        "ctl" = Except.ok [] :=
  ⟨rfl, rfl, rfl⟩

theorem do_ssh_no_creds (cfg : StressConfig)
    (channel : String → String → Option String) (cmd host : String)
    (hcred : pyTruthy cfg.target_ssh_user = false ∨
      pyTruthy cfg.target_private_key_path = false) :
    do_ssh cfg channel cmd host = none := by
  cases hcred with
  | inl h => simp [do_ssh, h]
  | inr h => simp [do_ssh, h]

/-- Claim C8: when the configured ssh username or key path is falsy, `do_ssh`
returns `none` without any connection attempt; a raised
`SSHExecCommandFailed` (channel `none`) is likewise mapped to `none`; and with
absent credentials all remote-log behavior degrades silently — the log scan
returns nothing and node enumeration returns the empty list without error. -/
theorem do_ssh_unavailable_or_failed (cfg : StressConfig)
    (channel : String → String → Option String) (cmd host logfiles ctl : String)
    (nodes : List String) :
    do_ssh cfg channel cmd host = (do_ssh_conn cfg channel cmd host).1 ∧
    (pyTruthy cfg.target_ssh_user = false ∨
        pyTruthy cfg.target_private_key_path = false →
      do_ssh_conn cfg channel cmd host = (none, 0)) ∧
    (channel cmd host = none → do_ssh cfg channel cmd host = none) ∧
    (pyTruthy cfg.target_ssh_user = false ∨
        pyTruthy cfg.target_private_key_path = false →
      _error_in_logs cfg channel logfiles nodes = none ∧
      _get_compute_nodes cfg channel ctl = Except.ok []) := by
  refine ⟨?_, ?_, ?_, ?_⟩
  · by_cases hc : pyTruthy cfg.target_ssh_user && pyTruthy cfg.target_private_key_path
    · simp [do_ssh, do_ssh_conn, hc]
    · simp [do_ssh, do_ssh_conn, hc]
  · intro hcred
    cases hcred with
    | inl h => simp [do_ssh_conn, h]
    | inr h => simp [do_ssh_conn, h]
  · intro hch
    by_cases hc : pyTruthy cfg.target_ssh_user && pyTruthy cfg.target_private_key_path
    · simp [do_ssh, hc, hch]
    · simp [do_ssh, hc]
  · intro hcred
    constructor
    · cases nodes with
      | nil => rfl
      | cons node rest =>
        simp [_error_in_logs, _error_in_logs_loop, do_ssh_no_creds cfg channel _ _ hcred]
    · simp [_get_compute_nodes, do_ssh_no_creds cfg channel _ _ hcred]

/-- Witness for C8: a config with no username never reaches the channel, a
channel failure yields no output, and the log scan is silently skipped. -/
theorem do_ssh_unavailable_or_failed_witness :
    do_ssh_conn ⟨none, some "k"⟩ (fun _c _h => some "out") "c" "h" = (none, 0) ∧
    do_ssh ⟨some "u", some "k"⟩ (fun _c _h => none) "c" "h" = none ∧
    _error_in_logs ⟨none, some "k"⟩ (fun _c _h => some "out") "log" ["n1"] = none ∧
    _get_compute_nodes ⟨none, some "k"⟩ (fun _c _h => some "out") "ctl" = Except.ok [] :=
  ⟨(do_ssh_unavailable_or_failed ⟨none, some "k"⟩ (fun _c _h => some "out") "c" "h" "log"
      "ctl" ["n1"]).2.1 (Or.inl rfl),
   (do_ssh_unavailable_or_failed ⟨some "u", some "k"⟩ (fun _c _h => none) "c" "h" "log"
      "ctl" ["n1"]).2.2.1 rfl,
   ((do_ssh_unavailable_or_failed ⟨none, some "k"⟩ (fun _c _h => some "out") "c" "h" "log"
      "ctl" ["n1"]).2.2.2 (Or.inl rfl)).1,
   ((do_ssh_unavailable_or_failed ⟨none, some "k"⟩ (fun _c _h => some "out") "c" "h" "log"
      "ctl" ["n1"]).2.2.2 (Or.inl rfl)).2⟩

/-- Claim C1 (code bug) evaluated: the polling loop's outcome is entirely
independent of the workers' `fails` counters — the `break` in the
`stop_on_error` check exits only the inner `for` loop — and concretely, with
`stop_on_error = true`, a ten-unit duration, a one-unit check interval, and a
single worker that stays alive with `fails = 1` from the first tick, the loop
still runs the full duration and exits for `timeExpired`, not for the
failure. -/
theorem poll_loop_ignores_fails :
    (∀ (mr : Option Nat) (L eT : Nat) (so lf : Bool) (deaths : List (Option Nat))
        (f1 f2 : Nat → List Nat) (ls : Nat → Option String) (fuel t : Nat),
      pollLoop mr L eT so lf deaths f1 ls fuel t =
        pollLoop mr L eT so lf deaths f2 ls fuel t) ∧
    pollLoop none 1 10 true false [none] (fun _t => [1]) (fun _t => none) 20 0 =
      some (10, StopReason.timeExpired) := by
  constructor
  · intro mr L eT so lf deaths f1 f2 ls fuel
    induction fuel with
    | zero => intro t; rfl
    | succ n ih =>
      intro t
      cases mr with
      | none =>
        simp only [pollLoop]
        by_cases h : eT - t = 0
        · simp [h]
        · cases lf with
          | false => simp [h, ih]
          | true =>
            cases hls : ls (t + min (eT - t) L) with
            | none => simp [h, hls, ih]
            | some e => simp [h, hls]
      | some m =>
        simp only [pollLoop]
        by_cases h : allDeadAt deaths t
        · simp [h]
        · cases lf with
          | false => simp [h, ih]
          | true =>
            cases hls : ls (t + min L L) with
            | none => simp [h, hls, ih]
            | some e => simp [h, hls]
  · rfl

theorem pollLoop_duration_exact (L eT : Nat) (so lf : Bool)
    (deaths : List (Option Nat)) (failsAt : Nat → List Nat)
    (logScan : Nat → Option String) (hL : 1 ≤ L)
    (hscan : ∀ s, logScan s = none) :
    ∀ fuel t, t ≤ eT → eT - t < fuel →
      pollLoop none L eT so lf deaths failsAt logScan fuel t =
        some (eT, StopReason.timeExpired) := by
  intro fuel
  induction fuel with
  | zero =>
    intro t _ht hf
    exact absurd hf (by omega)
  | succ n ih =>
    intro t ht hf
    by_cases h : eT - t = 0
    · have hte : t = eT := by omega
      simp [pollLoop, h, hte]
    · have hm1 : min (eT - t) L ≤ eT - t := Nat.min_le_left _ _
      have hm2 : 1 ≤ min (eT - t) L := by
        have : 1 ≤ eT - t := by omega
        exact le_min this hL
      have ht' : t + min (eT - t) L ≤ eT := by omega
      have hf' : eT - (t + min (eT - t) L) < n := by omega
      cases lf with
      | false =>
        simp only [pollLoop, h, if_neg h, Bool.false_eq_true, if_false]
        exact ih _ ht' hf'
      | true =>
        simp only [pollLoop, if_neg h, if_true, hscan]
        exact ih _ ht' hf'

/-- Claim C5: in duration mode (`max_runs` unset), with a positive check
interval and no log-scan hit, workers' liveness is irrelevant and the polling
loop exits exactly when the clock reaches `end_time = t0 + D` — the sleep of
`min(time_remaining, log_check_interval)` lands the last tick exactly on the
boundary, so the STOPPING transition happens no earlier than `D` and no later
than `D + log_check_interval` after the start. -/
theorem duration_mode_stops_at_end_time (D L t0 : Nat) (so lf : Bool)
    (deaths : List (Option Nat)) (failsAt : Nat → List Nat)
    (logScan : Nat → Option String) (fuel : Nat) (hL : 1 ≤ L)
    (hscan : ∀ s, logScan s = none) (hfuel : D < fuel) :
    pollLoop none L (t0 + D) so lf deaths failsAt logScan fuel t0 =
      some (t0 + D, StopReason.timeExpired) :=
  pollLoop_duration_exact L (t0 + D) so lf deaths failsAt logScan hL hscan fuel t0
    (Nat.le_add_right t0 D) (by omega)

/-- Witness for C5: duration 3 starting at time 5 with interval 2 — the loop
exits at time 8 for `timeExpired` even though the worker never dies. -/
theorem duration_mode_stops_at_end_time_witness :
    pollLoop none 2 8 true true [none] (fun _t => [0]) (fun _t => none) 4 5 =
      some (8, StopReason.timeExpired) :=
  duration_mode_stops_at_end_time 3 2 5 true true [none] (fun _t => [0]) (fun _t => none) 4
    (by decide) (fun _s => rfl) (by decide)

/-- Claim C6: in run-count mode (`max_runs` set), with no log-scan hit, the
polling loop exits exactly when every worker has exited on its own — any exit
reports `allDead` at a time when all workers are dead, a tick that finds all
workers dead exits immediately, and a tick with a live worker just sleeps one
interval and polls again, for any `end_time` whatsoever (the duration bound is
not consulted, so polling continues past `end_time` while a worker lives). -/
theorem run_count_mode_stops_when_all_dead (n L eT : Nat) (so lf : Bool)
    (deaths : List (Option Nat)) (failsAt : Nat → List Nat)
    (logScan : Nat → Option String) (hscan : ∀ s, logScan s = none) :
    (∀ fuel t t' r,
      pollLoop (some n) L eT so lf deaths failsAt logScan fuel t = some (t', r) →
        r = StopReason.allDead ∧ allDeadAt deaths t' = true) ∧
    (∀ fuel t, allDeadAt deaths t = true →
      pollLoop (some n) L eT so lf deaths failsAt logScan (fuel + 1) t =
        some (t, StopReason.allDead)) ∧
    (∀ fuel t, allDeadAt deaths t = false →
      pollLoop (some n) L eT so lf deaths failsAt logScan (fuel + 1) t =
        pollLoop (some n) L eT so lf deaths failsAt logScan fuel (t + L)) := by
  refine ⟨?_, ?_, ?_⟩
  · intro fuel
    induction fuel with
    | zero =>
      intro t t' r hp
      exact absurd hp (by simp [pollLoop])
    | succ m ih =>
      intro t t' r hp
      by_cases h : allDeadAt deaths t
      · simp only [pollLoop, h, if_true] at hp
        obtain ⟨rfl, rfl⟩ := Prod.mk.injEq _ _ _ _ ▸ Option.some.injEq _ _ ▸ hp
        exact ⟨rfl, h⟩
      · cases lf with
        | false =>
          simp only [pollLoop, h, Bool.false_eq_true, if_false] at hp
          exact ih _ _ _ hp
        | true =>
          simp only [pollLoop, h, if_false, if_true, hscan] at hp
          exact ih _ _ _ hp
  · intro fuel t h
    simp [pollLoop, h]
  · intro fuel t h
    cases lf with
    | false => simp [pollLoop, h]
    | true => simp [pollLoop, h, hscan]

/-- Witness for C6: a worker dead from time 0 stops the loop immediately at
time 9, although `end_time = 0` passed long ago. -/
theorem run_count_mode_stops_when_all_dead_witness :
    pollLoop (some 3) 1 0 false false [some 0] (fun _t => [0]) (fun _t => none) 1 9 =
      some (9, StopReason.allDead) :=
  (run_count_mode_stops_when_all_dead 3 1 0 false false [some 0] (fun _t => [0])
      (fun _t => none) (fun _s => rfl)).2.1 0 9 (by decide)

theorem reportFold_he_aux (ps : List WorkerRec) :
    ∀ a b : Nat, ∀ he0 : Bool,
      (ps.foldl
        (fun acc p => (acc.1 + p.runs, acc.2.1 + p.fails, acc.2.2 || decide (0 < p.fails)))
        (a, b, he0)).2.2 =
      (he0 || ps.any (fun p => decide (0 < p.fails))) := by
  induction ps with
  | nil => intro a b he0; simp
  | cons p ps ih =>
    intro a b he0
    simp only [List.foldl_cons, List.any_cons]
    rw [ih]
    cases he0 <;> simp [Bool.or_assoc]

theorem reportFold_had_errors (ps : List WorkerRec) (he0 : Bool) :
    (reportFold ps he0).2.2 = (he0 || ps.any (fun p => decide (0 < p.fails))) :=
  reportFold_he_aux ps 0 0 he0

theorem terminate_all_recs_any_fails (ps : List WorkerRec) :
    (terminate_all_recs ps).any (fun p => decide (0 < p.fails)) =
      ps.any (fun p => decide (0 < p.fails)) := by
  induction ps with
  | nil => rfl
  | cons p ps ih =>
    simp only [terminate_all_recs, List.map_cons, List.any_cons] at ih ⊢
    rw [ih]

/-- Claim C10: the run's exit status is `1` exactly when the loop broke on a
log-scan hit or some worker's final `fails` counter is positive — in
particular a worker failure forces exit status `1` (and `cleanup` is skipped
exactly in that case) even with `stop_on_error = false` and no log
monitoring. -/
theorem exit_one_iff_fails_or_log (mr : Option Nat) (L eT : Nat) (so lf : Bool)
    (deaths : List (Option Nat)) (failsAt : Nat → List Nat)
    (logScan : Nat → Option String) (fuel t0 : Nat) (workers : List WorkerRec)
    (t : Nat) (reason : StopReason) (res : FinishResult)
    (hpoll : pollLoop mr L eT so lf deaths failsAt logScan fuel t0 = some (t, reason))
    (hrun : runDriver mr L eT so lf deaths failsAt logScan fuel t0 workers = some res) :
    (res.exitStatus = 1 ↔
      (reason = StopReason.logError ∨ ∃ p ∈ workers, 0 < p.fails)) ∧
    (res.cleanupCalls = 0 ↔ res.exitStatus = 1) := by
  have hres : res = stress_finish workers (decide (reason = StopReason.logError)) := by
    simp only [runDriver, hpoll] at hrun
    exact (Option.some.injEq _ _ ▸ hrun).symm
  subst hres
  have hhe :
      (stress_finish workers (decide (reason = StopReason.logError))).had_errors =
        (decide (reason = StopReason.logError) ||
          workers.any (fun p => decide (0 < p.fails))) := by
    simp only [stress_finish]
    rw [reportFold_had_errors, terminate_all_recs_any_fails]
  constructor
  · rw [show (stress_finish workers (decide (reason = StopReason.logError))).exitStatus =
        (if (stress_finish workers (decide (reason = StopReason.logError))).had_errors
          then 1 else 0) from by simp [stress_finish]]
    rw [hhe]
    by_cases hlog : reason = StopReason.logError
    · simp [hlog]
    · rw [decide_eq_false hlog, Bool.false_or]
      by_cases hany : workers.any (fun p => decide (0 < p.fails)) = true
      · rw [if_pos hany]
        simp only [List.any_eq_true, decide_eq_true_eq] at hany
        exact iff_of_true rfl (Or.inr hany)
      · rw [if_neg hany]
        simp only [List.any_eq_true, decide_eq_true_eq] at hany
        refine iff_of_false (by omega) ?_
        rintro (h | h)
        · exact hlog h
        · exact hany h
  · simp only [stress_finish]
    by_cases hb :
        (reportFold (terminate_all_recs workers)
          (decide (reason = StopReason.logError))).2.2
    · simp [hb]
    · simp [hb]

/-- Witness for C10: one worker with `runs = 2`, `fails = 1`, no log
monitoring, `stop_on_error = false`, duration mode — the run exits with
status `1` and cleanup is skipped. -/
theorem exit_one_iff_fails_or_log_witness :
    ((stress_finish [⟨0, "a", ⟨true, 0, false⟩, 2, 1⟩] false).exitStatus = 1 ↔
      (StopReason.timeExpired = StopReason.logError ∨
        ∃ p ∈ [(⟨0, "a", ⟨true, 0, false⟩, 2, 1⟩ : WorkerRec)], 0 < p.fails)) ∧
    ((stress_finish [⟨0, "a", ⟨true, 0, false⟩, 2, 1⟩] false).cleanupCalls = 0 ↔
      (stress_finish [⟨0, "a", ⟨true, 0, false⟩, 2, 1⟩] false).exitStatus = 1) :=
  exit_one_iff_fails_or_log none 1 1 false false [none] (fun _t => [0]) (fun _t => none)
    3 0 [⟨0, "a", ⟨true, 0, false⟩, 2, 1⟩] 1 StopReason.timeExpired
    (stress_finish [⟨0, "a", ⟨true, 0, false⟩, 2, 1⟩] false) rfl rfl

theorem finish_events_split (ps : List WorkerRec) (he0 : Bool) :
    finish_events ps he0 =
      terminate_all_events ps ++
        (report_events (terminate_all_recs ps) ++
          (if (reportFold (terminate_all_recs ps) he0).2.2 then []
           else [FinishEvent.cleanup])) := by
  simp [finish_events, List.append_assoc]

/-- Claim C9: in the shutdown trace, every join of a worker (from
`terminate_all_processes`) occurs strictly before every read of a worker's
statistics (from the reporting loop) — the reported snapshot is taken only
after all workers have been joined. -/
theorem joins_precede_stat_reads (ps : List WorkerRec) (he0 : Bool)
    (i j a b r f : Nat)
    (hi : (finish_events ps he0).get? i = some (FinishEvent.join a))
    (hj : (finish_events ps he0).get? j = some (FinishEvent.readStats b r f)) :
    i < j := by
  rw [List.get?_eq_getElem?, finish_events_split] at hi hj
  have he1join : ∀ x ∈ terminate_all_events ps, ∃ c, x = FinishEvent.join c := by
    intro x hx
    obtain ⟨p, _hp, rfl⟩ := List.mem_map.mp hx
    exact ⟨p.p_number, rfl⟩
  have hrestjoin : ∀ x, x ∈ report_events (terminate_all_recs ps) ++
      (if (reportFold (terminate_all_recs ps) he0).2.2 then []
       else [FinishEvent.cleanup]) → ∀ c, x ≠ FinishEvent.join c := by
    intro x hx c
    rcases List.mem_append.mp hx with hx | hx
    · obtain ⟨p, _hp, rfl⟩ := List.mem_map.mp hx
      exact fun hcon => FinishEvent.noConfusion hcon
    · by_cases hb : (reportFold (terminate_all_recs ps) he0).2.2
      · rw [if_pos hb] at hx
        exact absurd hx (List.not_mem_nil x)
      · rw [if_neg hb] at hx
        rw [List.mem_singleton.mp hx]
        exact fun hcon => FinishEvent.noConfusion hcon
  have hilen : i < (terminate_all_events ps).length := by
    by_contra hni
    rw [List.getElem?_append_right (Nat.le_of_not_lt hni)] at hi
    obtain ⟨hlt, hEq⟩ := List.getElem?_eq_some.mp hi
    exact hrestjoin _ (hEq ▸ List.getElem_mem hlt) a rfl
  have hjlen : (terminate_all_events ps).length ≤ j := by
    by_contra hnj
    rw [List.getElem?_append_left (Nat.lt_of_not_le hnj)] at hj
    obtain ⟨hlt, hEq⟩ := List.getElem?_eq_some.mp hj
    obtain ⟨c, hc⟩ := he1join _ (hEq ▸ List.getElem_mem hlt)
    exact FinishEvent.noConfusion hc
  omega

/-- Witness for C9 at a one-worker registry: the join sits at index 0 and the
statistics read at index 1 of the shutdown trace, and 0 < 1. -/
theorem joins_precede_stat_reads_witness :
    (finish_events [⟨0, "act", ⟨true, 0, false⟩, 3, 1⟩] false).get? 0 =
      some (FinishEvent.join 0) ∧
    (finish_events [⟨0, "act", ⟨true, 0, false⟩, 3, 1⟩] false).get? 1 =
      some (FinishEvent.readStats 0 3 1) ∧
    (0 : Nat) < 1 :=
  ⟨rfl, rfl,
    joins_precede_stat_reads [⟨0, "act", ⟨true, 0, false⟩, 3, 1⟩] false 0 1 0 0 3 1 rfl rfl⟩

end StressDriver
